import Mathlib

/-!
Shallow embedding of the WowSQL TypeScript SDK query builder
(class `QueryBuilder` in the main SDK module): the accumulated
`QueryOptions` state, the chainable builder methods, and the terminal
`get` compilation that chooses between the simple GET query-string
encoding and the advanced POST JSON-body encoding.

JavaScript union types (`string | string[]`, `FilterExpression |
FilterExpression[]`, `string | OrderByItem[]`) are embedded as explicit
sum-like inductives, optional fields as `Option`, and the relevant
JavaScript truthiness tests (an empty string is falsy, every array and
object is truthy) are spelled out where the source relies on them.
-/

namespace WowSQL

/-- Scalar JavaScript values used as filter and having values. -/
inductive Scalar
  | str (s : String)
  | num (n : Int)
  | bool (b : Bool)
  | null
  deriving DecidableEq, Repr

/-- Filter values: a scalar, or an array of scalars (for `in`, `not_in`,
`between`, `not_between`). -/
inductive Value
  | scalar (v : Scalar)
  | arr (vs : List Scalar)
  deriving DecidableEq, Repr

/-- The operator union of `FilterExpression.operator` in the source. -/
inductive FilterOp
  | eq | neq | gt | gte | lt | lte | like | is | inOp | notIn | between | notBetween | isNot
  deriving DecidableEq, Repr

/-- The restricted operator union of `HavingFilter.operator`. -/
inductive HavingOp
  | eq | neq | gt | gte | lt | lte
  deriving DecidableEq, Repr

/-- The `logical_op` union `AND | OR`. -/
inductive LogicalOp
  | and | or
  deriving DecidableEq, Repr

/-- Structure `FilterExpression` from the source. The builder always fills
`logical_op` (its TypeScript default argument is `AND`). -/
structure FilterExpression where
  column : String
  operator : FilterOp
  value : Value
  logical_op : LogicalOp
  deriving DecidableEq, Repr

/-- Structure `HavingFilter` from the source. -/
structure HavingFilter where
  column : String
  operator : HavingOp
  value : Scalar
  deriving DecidableEq, Repr

/-- Sort direction union. -/
inductive Direction
  | asc | desc
  deriving DecidableEq, Repr

/-- Structure `OrderByItem` from the source. -/
structure OrderByItem where
  column : String
  direction : Direction
  deriving DecidableEq, Repr

/-- The `string | string[]` union used by `select` and `group_by`. -/
inductive StrOrList
  | str (s : String)
  | list (l : List String)
  deriving DecidableEq, Repr

/-- The `FilterExpression | FilterExpression[]` union of the `filter`
option field. -/
inductive FilterField
  | single (f : FilterExpression)
  | arr (fs : List FilterExpression)
  deriving DecidableEq, Repr

/-- The `HavingFilter | HavingFilter[]` union of the `having` option
field. -/
inductive HavingField
  | single (h : HavingFilter)
  | arr (hs : List HavingFilter)
  deriving DecidableEq, Repr

/-- The `string | OrderByItem[]` union of the `order` option field. -/
inductive OrderField
  | str (s : String)
  | items (l : List OrderByItem)
  deriving DecidableEq, Repr

/-- Structure `QueryOptions` from the source: the accumulated builder state and
also the shape of the transient overrides argument of `get`/`execute`.
`none` is an absent (undefined) field. -/
structure QueryOptions where
  select : Option StrOrList := none
  filter : Option FilterField := none
  group_by : Option StrOrList := none
  having : Option HavingField := none
  order : Option OrderField := none
  orderDirection : Option Direction := none
  limit : Option Int := none
  offset : Option Int := none
  deriving DecidableEq, Repr

/-- The fresh builder state `private options: QueryOptions = {}`. -/
def emptyOptions : QueryOptions := {}

/-- JavaScript string coercion of a scalar, as in the template literal
of the flat filter token. -/
def Scalar.jsToString : Scalar → String
  | .str s => s
  | .num n => toString n
  | .bool b => cond b "true" "false"
  | .null => "null"

/-- JavaScript string coercion of a filter value (arrays join their
elements with commas). -/
def Value.jsToString : Value → String
  | .scalar v => v.jsToString
  | .arr vs => String.intercalate "," (vs.map Scalar.jsToString)

/-- Whether a filter value is an array (`Array.isArray(f.value)`). -/
def Value.isArr : Value → Bool
  | .scalar _ => false
  | .arr _ => true

/-- JavaScript truthiness of a value (used by `data[0] || null`). -/
def Value.jsTruthy : Value → Bool
  | .scalar (.str s) => !(s == "")
  | .scalar (.num n) => !(n == 0)
  | .scalar (.bool b) => b
  | .scalar .null => false
  | .arr _ => true

/-- JavaScript truthiness of a `string | string[]` field: an empty
string is falsy, every array (even an empty one) is truthy. -/
def StrOrList.jsTruthy : StrOrList → Bool
  | .str s => !(s == "")
  | .list _ => true

/-- The wire name of each filter operator. -/
def FilterOp.wire : FilterOp → String
  | .eq => "eq" | .neq => "neq" | .gt => "gt" | .gte => "gte"
  | .lt => "lt" | .lte => "lte" | .like => "like" | .is => "is"
  | .inOp => "in" | .notIn => "not_in" | .between => "between"
  | .notBetween => "not_between" | .isNot => "is_not"

/-- The wire name of a sort direction. -/
def Direction.wire : Direction → String
  | .asc => "asc" | .desc => "desc"

/-- Character-level split on commas, as `s.split(',')` in JavaScript:
every comma separates and adjacent commas yield empty pieces. The
accumulator holds the current piece reversed. -/
def splitCommaAux : List Char → List Char → List String
  | [], acc => [String.mk acc.reverse]
  | c :: rest, acc =>
      if c = ',' then String.mk acc.reverse :: splitCommaAux rest []
      else splitCommaAux rest (c :: acc)

/-- JavaScript `s.split(',')`. -/
def splitComma (s : String) : List String :=
  splitCommaAux s.data []

/-- JavaScript `s.trim()`: drop leading and trailing whitespace. -/
def jsTrim (s : String) : String :=
  String.mk
    (((s.data.dropWhile Char.isWhitespace).reverse.dropWhile
        Char.isWhitespace).reverse)

/-- The normalization `s.split(',').map(s => s.trim())` from the source handling of
comma-separated `select` and `group_by` strings. -/
def jsSplitTrim (s : String) : List String :=
  (splitComma s).map jsTrim

/-- The list of filter clauses carried by the optional filter field
(`undefined` contributes none, a bare clause contributes one). -/
def filterList : Option FilterField → List FilterExpression
  | none => []
  | some (.single f) => [f]
  | some (.arr fs) => fs

/-- The list of having clauses carried by the optional having field. -/
def havingList : Option HavingField → List HavingFilter
  | none => []
  | some (.single h) => [h]
  | some (.arr hs) => hs

namespace QueryBuilder

/-- Method `select(columns)`: store the projection. The source keeps a single
string argument as a string and a single array argument as an array;
both forms are carried by `StrOrList`. Overwrites any prior value. -/
def select (o : QueryOptions) (columns : StrOrList) : QueryOptions :=
  { o with select := some columns }

/-- Method `filter(column, operator, value, logical_op)`: append one clause.
The source initializes an absent filter field to an empty array, pushes
onto an array field, and wraps a bare clause together with the new one
into a two-element array. The TypeScript default for `logical_op` is
`AND`; callers of this embedding pass it explicitly. -/
def filter (o : QueryOptions) (column : String) (operator : FilterOp)
    (value : Value) (logical_op : LogicalOp) : QueryOptions :=
  let f : FilterExpression := ⟨column, operator, value, logical_op⟩
  match o.filter with
  | none => { o with filter := some (.arr [f]) }
  | some (.arr fs) => { o with filter := some (.arr (fs ++ [f])) }
  | some (.single f0) => { o with filter := some (.arr [f0, f]) }

/-- Method `groupBy(columns)`: overwrite the group-by field. -/
def groupBy (o : QueryOptions) (columns : StrOrList) : QueryOptions :=
  { o with group_by := some columns }

/-- Method `having(column, operator, value)`: append one having clause, with
the same array-normalizing push as `filter`. -/
def having (o : QueryOptions) (column : String) (operator : HavingOp)
    (value : Scalar) : QueryOptions :=
  let h : HavingFilter := ⟨column, operator, value⟩
  match o.having with
  | none => { o with having := some (.arr [h]) }
  | some (.arr hs) => { o with having := some (.arr (hs ++ [h])) }
  | some (.single h0) => { o with having := some (.arr [h0, h]) }

/-- Method `orderBy(column, direction?)`: a string column overwrites `order`
and, only when a direction is given (both direction strings are
truthy), overwrites `orderDirection`; an array argument overwrites
`order` alone, leaving `orderDirection` untouched. -/
def orderBy (o : QueryOptions) (column : OrderField)
    (direction : Option Direction) : QueryOptions :=
  match column with
  | .str c =>
      { o with
        order := some (.str c)
        orderDirection := match direction with
          | some d => some d
          | none => o.orderDirection }
  | .items l => { o with order := some (.items l) }

/-- Method `order(column, direction = 'asc')`: alias for the single-column
`orderBy`; the TypeScript default direction is `asc`, so a direction is
always supplied. -/
def order (o : QueryOptions) (column : String) (direction : Direction) :
    QueryOptions :=
  orderBy o (.str column) (some direction)

/-- Method `limit(n)`: overwrite the limit. -/
def limit (o : QueryOptions) (n : Int) : QueryOptions :=
  { o with limit := some n }

/-- Method `offset(n)`: overwrite the offset. -/
def offset (o : QueryOptions) (n : Int) : QueryOptions :=
  { o with offset := some n }

/-- Convenience `eq(column, value)` = `filter(column, 'eq', value)`. -/
def eq (o : QueryOptions) (column : String) (value : Value) : QueryOptions :=
  filter o column .eq value .and

/-- Convenience `or(column, operator, value)` =
`filter(column, operator, value, 'OR')`. -/
def or (o : QueryOptions) (column : String) (operator : FilterOp)
    (value : Value) : QueryOptions :=
  filter o column operator value .or

end QueryBuilder

/-! ## The compiled wire forms -/

/-- The JSON body assembled by `get` for the POST endpoint. Fields that
the source leaves unassigned are `none`. `order_by` keeps the
`string | OrderByItem[]` union shape; `order_direction` is only set
alongside a string `order_by`. -/
structure Body where
  select : Option (List String) := none
  filters : Option (List FilterExpression) := none
  group_by : Option (List String) := none
  having : Option (List HavingFilter) := none
  order_by : Option OrderField := none
  order_direction : Option Direction := none
  limit : Option Int := none
  offset : Option Int := none
  deriving DecidableEq, Repr

/-- The URL query parameters assembled by `get` for the GET endpoint. -/
structure GetParams where
  select : Option String := none
  filter : Option String := none
  order : Option String := none
  order_direction : Option Direction := none
  limit : Option Int := none
  offset : Option Int := none
  deriving DecidableEq, Repr

/-- A compiled HTTP request: either `POST path body` or
`GET path params`. -/
inductive Request
  | post (path : String) (body : Body)
  | getReq (path : String) (params : GetParams)
  deriving DecidableEq, Repr

/-- Whether a compiled request is a POST. -/
def Request.isPost : Request → Bool
  | .post _ _ => true
  | .getReq _ _ => false

/-- The limit carried by a compiled request (body or params). -/
def Request.limitOf : Request → Option Int
  | .post _ b => b.limit
  | .getReq _ p => p.limit

/-- The spread merge `{ ...this.options, ...additionalOptions }` on one
optional field: a field present in the overrides replaces the
accumulated one. -/
def overlay (override base : Option α) : Option α :=
  match override with
  | some v => some v
  | none => base

/-- The spread merge of the whole options record. -/
def mergeOptions (base override : QueryOptions) : QueryOptions where
  select := overlay override.select base.select
  filter := overlay override.filter base.filter
  group_by := overlay override.group_by base.group_by
  having := overlay override.having base.having
  order := overlay override.order base.order
  orderDirection := overlay override.orderDirection base.orderDirection
  limit := overlay override.limit base.limit
  offset := overlay override.offset base.offset

/-- The body-building phase of `get` (source lines building `body` from
`finalOptions`). Truthiness guards: an empty string `select`,
`group_by` or `order` is falsy and leaves the field unassigned; arrays
and clause objects are always truthy. -/
def buildBody (fo : QueryOptions) : Body where
  select := match fo.select with
    | none => none
    | some (.str s) => if s = "" then none else some (jsSplitTrim s)
    | some (.list l) => some l
  filters := match fo.filter with
    | none => none
    | some ff => some (filterList (some ff))
  group_by := match fo.group_by with
    | none => none
    | some (.str s) => if s = "" then none else some (jsSplitTrim s)
    | some (.list l) => some l
  having := match fo.having with
    | none => none
    | some hf => some (havingList (some hf))
  order_by := match fo.order with
    | none => none
    | some (.str s) => if s = "" then none else some (.str s)
    | some (.items l) => some (.items l)
  order_direction := match fo.order with
    | none => none
    | some (.str s) =>
        if s = "" then none
        else some ((fo.orderDirection).getD .asc)
    | some (.items _) => none
  limit := fo.limit
  offset := fo.offset

/-- Whether the advanced-operator set contains the operator
(`['in','not_in','between','not_between'].includes(f.operator)`). -/
def FilterOp.isAdvanced : FilterOp → Bool
  | .inOp | .notIn | .between | .notBetween => true
  | _ => false

/-- The nine simple comparison and pattern operators. -/
def FilterOp.isSimple : FilterOp → Bool
  | .eq | .neq | .gt | .gte | .lt | .lte | .like | .is | .isNot => true
  | _ => false

/-- The test `Array.isArray(body.order_by)`. -/
def orderIsItems : Option OrderField → Bool
  | some (.items _) => true
  | _ => false

/-- The `hasAdvancedFeatures` test of the source. -/
def hasAdvancedFeatures (b : Body) : Bool :=
  b.group_by.isSome || b.having.isSome || orderIsItems b.order_by ||
    (match b.filters with
      | some fs => fs.any (fun f => f.operator.isAdvanced)
      | none => false)

/-- The last-moment `hasArrayValues` re-route test of the GET branch
(guarded by `body.filters && body.filters.length > 0`). -/
def hasArrayFilterValues (b : Body) : Bool :=
  match b.filters with
  | some fs => !fs.isEmpty && fs.any (fun f => f.value.isArr)
  | none => false

/-- One flat filter token: the template literal
`column.operator.value` with JavaScript string coercion of the value. -/
def filterToken (f : FilterExpression) : String :=
  f.column ++ "." ++ f.operator.wire ++ "." ++ f.value.jsToString

/-- The parameter-building phase of the GET branch. -/
def buildParams (b : Body) : GetParams where
  select := b.select.map (String.intercalate ",")
  filter := match b.filters with
    | some fs =>
        if fs.isEmpty then none
        else some (String.intercalate "," (fs.map filterToken))
    | none => none
  order := match b.order_by with
    | some (.str s) => if s = "" then none else some s
    | _ => none
  order_direction := match b.order_by with
    | some (.str s) =>
        if s = "" then none else some ((b.order_direction).getD .asc)
    | _ => none
  limit := b.limit
  offset := b.offset

/-- The full request compilation of `get`: POST when
`hasAdvancedFeatures` holds, POST again when the GET branch finds an
array-shaped filter value, and otherwise the flat GET encoding. -/
def compile (tableName : String) (fo : QueryOptions) : Request :=
  let b := buildBody fo
  if hasAdvancedFeatures b then
    .post ("/" ++ tableName ++ "/query") b
  else if hasArrayFilterValues b then
    .post ("/" ++ tableName ++ "/query") b
  else
    .getReq ("/" ++ tableName) (buildParams b)

namespace QueryBuilder

/-- The terminal `get(additionalOptions?)` as a state-passing step: it
compiles the spread merge of the persisted options and the transient
overrides, and leaves the persisted options untouched (the source only
reads `this.options`). A missing overrides argument is `emptyOptions`. -/
def get (tableName : String) (o additional : QueryOptions) :
    Request × QueryOptions :=
  (compile tableName (mergeOptions o additional), o)

/-- The terminal `execute` is an alias for `get`. -/
def execute (tableName : String) (o additional : QueryOptions) :
    Request × QueryOptions :=
  get tableName o additional

/-- The request-issuing step of `first()`: `this.limit(1).get()`. The
call to `limit` mutates the persisted options, so the returned state
carries `limit := 1`. -/
def firstStep (tableName : String) (o : QueryOptions) :
    Request × QueryOptions :=
  let o1 := limit o 1
  get tableName o1 emptyOptions

end QueryBuilder

/-! ## Response handling for `first` -/

/-- The paginated response envelope, with rows as JavaScript values. -/
structure QueryResponse where
  data : List Value
  count : Int
  total : Int
  limit : Int
  offset : Int
  deriving DecidableEq, Repr

/-- A transport error as surfaced by the axios interceptor. -/
structure WowError where
  message : String
  status : Option Int := none
  deriving DecidableEq, Repr

/-- The JavaScript expression `result.data[0] || null`: the first row
when it exists and is truthy, and the `null` sentinel otherwise. -/
def firstValue (data : List Value) : Value :=
  match data with
  | [] => .scalar .null
  | v :: _ => if v.jsTruthy then v else .scalar .null

/-- Function running `first()` against a transport: issue the `firstStep` request,
propagate a transport error unchanged, and otherwise take
`data[0] || null` from the envelope. -/
def runFirst (tableName : String) (o : QueryOptions)
    (transport : Request → Except WowError QueryResponse) :
    Except WowError Value :=
  match transport (QueryBuilder.firstStep tableName o).1 with
  | .ok env => .ok (firstValue env.data)
  | .error e => .error e

/-! ## Sequences of ordering calls -/

/-- One call to the ordering methods of the builder: the single-key
form `orderBy(column, direction?)` (also reached through `order`, which
always supplies a direction), or the multi-key form
`orderBy([{column, direction}, ...])`. -/
inductive OrderCall
  | single (column : String) (direction : Option Direction)
  | multi (items : List OrderByItem)
  deriving DecidableEq, Repr

/-- Apply one ordering call to the builder state. -/
def applyOrderCall (o : QueryOptions) : OrderCall → QueryOptions
  | .single c d => QueryBuilder.orderBy o (.str c) d
  | .multi l => QueryBuilder.orderBy o (.items l) none

/-- Apply a sequence of ordering calls in order. -/
def applyOrderCalls (o : QueryOptions) (cs : List OrderCall) : QueryOptions :=
  cs.foldl applyOrderCall o

/-- Whether an ordering call fixes the direction on its own: the
multi-key form always does (each item carries one), and the single-key
form does when a direction argument is supplied. -/
def OrderCall.explicitDir : OrderCall → Bool
  | .single _ (some _) => true
  | .single _ none => false
  | .multi _ => true

/-- The compiled order specification of a state: the `order_by` value
together with the `order_direction` that accompanies the single-column
form, as assembled into the wire body. -/
def wireOrderOf (o : QueryOptions) : Option OrderField × Option Direction :=
  ((buildBody o).order_by, (buildBody o).order_direction)

/-! ## State-level feature predicates -/

/-- A group-by field is present (and JavaScript-truthy: a present empty
string is falsy and is skipped by the body builder, while every array,
even an empty one, is truthy). -/
def QueryOptions.hasGroupBy (fo : QueryOptions) : Bool :=
  match fo.group_by with
  | some g => g.jsTruthy
  | none => false

/-- At least one having clause is present. -/
def QueryOptions.hasHaving (fo : QueryOptions) : Bool :=
  !(havingList fo.having).isEmpty

/-- The order specification is the multi-key (array) form. -/
def QueryOptions.hasMultiOrder (fo : QueryOptions) : Bool :=
  match fo.order with
  | some (.items _) => true
  | _ => false

/-- Some filter clause uses `in`, `not_in`, `between` or
`not_between`. -/
def QueryOptions.hasAdvancedFilterOp (fo : QueryOptions) : Bool :=
  (filterList fo.filter).any (fun f => f.operator.isAdvanced)

/-- Every filter clause uses one of the nine simple operators and
carries a scalar (non-array) value. -/
def QueryOptions.allSimpleScalarFilters (fo : QueryOptions) : Bool :=
  (filterList fo.filter).all
    (fun f => f.operator.isSimple && !f.value.isArr)

/-- The order specification is absent or a single column. -/
def QueryOptions.singleOrNoOrder (fo : QueryOptions) : Bool :=
  match fo.order with
  | some (.items _) => false
  | _ => true

/-- Replace the logical op of one clause by AND. -/
def FilterExpression.withAndOp (f : FilterExpression) : FilterExpression :=
  { f with logical_op := .and }

/-- Replace every logical op in a filter field by AND. -/
def FilterField.allAnd : FilterField → FilterField
  | .single f => .single f.withAndOp
  | .arr fs => .arr (fs.map FilterExpression.withAndOp)

/-- Replace every accumulated logical op by AND, leaving the rest of
the state untouched. -/
def QueryOptions.allAndFilters (o : QueryOptions) : QueryOptions :=
  { o with filter := o.filter.map FilterField.allAnd }

/-! ## Concrete states used by witnesses and counterexamples -/

/-- A chain state holding one filter added through the builder
(`.eq('status', 'active')`), used to exhibit the shallow override
merge. -/
def chainState : QueryOptions :=
  QueryBuilder.eq emptyOptions "status" (.scalar (.str "active"))

/-- A transient overrides record carrying its own filter field. -/
def overrideState : QueryOptions :=
  { filter := some (.arr [⟨"age", .gt, .scalar (.num 30), .and⟩]) }

/-- A chain state built with `.groupBy(['category'])`. -/
def groupByChainState : QueryOptions :=
  QueryBuilder.groupBy emptyOptions (.list ["category"])

/-- A chain state built with `.filter('age','gte',18).order('id')`. -/
def simpleChainState : QueryOptions :=
  QueryBuilder.order
    (QueryBuilder.filter emptyOptions "age" .gte (.scalar (.num 18)) .and)
    "id" .asc

/-- A chain state built with `.eq('a', 1).or('b', 'eq', 2)`: two
scalar equality filters, the second one an OR clause. -/
def orChainState : QueryOptions :=
  QueryBuilder.or
    (QueryBuilder.eq emptyOptions "a" (.scalar (.num 1)))
    "b" .eq (.scalar (.num 2))

/-- A transport stub answering every request with an empty envelope. -/
def emptyTransport : Request → Except WowError QueryResponse :=
  fun _ => .ok ⟨[], 0, 0, 1, 0⟩

/-! ## Theorems -/

/-- Helper: the advanced set is exactly the complement of the simple
set among the thirteen operators. -/
theorem FilterOp.isAdvanced_eq_not_isSimple (op : FilterOp) :
    op.isAdvanced = !op.isSimple := by
  cases op <;> rfl

/-- Helper: merging with an absent overrides argument is the identity
on the accumulated state. -/
theorem mergeOptions_empty (o : QueryOptions) :
    mergeOptions o emptyOptions = o := rfl

/-- Helper: the limit of a compiled request is the limit of the final
options, on both the POST and the GET branch. -/
theorem limitOf_compile (t : String) (fo : QueryOptions) :
    Request.limitOf (compile t fo) = fo.limit := by
  simp only [compile]
  split
  · rfl
  · split <;> rfl

/-- Helper: any of the four state-level advanced-feature flags makes
the `hasAdvancedFeatures` test of the compiled body true. -/
theorem hasAdv_of_flags (fo : QueryOptions)
    (h : (fo.hasGroupBy || fo.hasHaving || fo.hasMultiOrder
        || fo.hasAdvancedFilterOp) = true) :
    hasAdvancedFeatures (buildBody fo) = true := by
  simp only [Bool.or_eq_true] at h
  rcases h with ((hg | hh) | hm) | ha
  · have : (buildBody fo).group_by.isSome = true := by
      unfold QueryOptions.hasGroupBy at hg
      cases e : fo.group_by with
      | none => rw [e] at hg; simp at hg
      | some g =>
          rw [e] at hg
          cases g with
          | str s =>
              simp only [StrOrList.jsTruthy, Bool.not_eq_true'] at hg
              have hs : ¬ s = "" := by
                intro hc; rw [hc] at hg; simp at hg
              simp [buildBody, e, hs]
          | list l => simp [buildBody, e]
    simp [hasAdvancedFeatures, this]
  · have : (buildBody fo).having.isSome = true := by
      unfold QueryOptions.hasHaving at hh
      cases e : fo.having with
      | none => rw [e] at hh; simp [havingList] at hh
      | some hf => simp [buildBody, e]
    simp [hasAdvancedFeatures, this]
  · have : orderIsItems (buildBody fo).order_by = true := by
      unfold QueryOptions.hasMultiOrder at hm
      cases e : fo.order with
      | none => rw [e] at hm; simp at hm
      | some g =>
          rw [e] at hm
          cases g with
          | str s => simp at hm
          | items l => simp [buildBody, e, orderIsItems]
    simp [hasAdvancedFeatures, this]
  · unfold QueryOptions.hasAdvancedFilterOp at ha
    cases e : fo.filter with
    | none => rw [e] at ha; simp [filterList] at ha
    | some ff =>
        rw [e] at ha
        simp [hasAdvancedFeatures, buildBody, e, ha]

/-- Helper: every filter clause of a state whose filters are all
simple and scalar has a non-advanced operator and a non-array value. -/
theorem simple_state_filters (fo : QueryOptions)
    (h : fo.allSimpleScalarFilters = true) :
    ∀ f ∈ filterList fo.filter,
      f.operator.isAdvanced = false ∧ f.value.isArr = false := by
  intro f hf
  unfold QueryOptions.allSimpleScalarFilters at h
  have := List.all_eq_true.mp h f hf
  simp only [Bool.and_eq_true, Bool.not_eq_true'] at this
  refine ⟨?_, this.2⟩
  rw [FilterOp.isAdvanced_eq_not_isSimple, this.1]
  rfl

/-- Helper: under the simple-path hypotheses the compiler takes the
flat GET branch. -/
theorem compile_simple_getReq (t : String) (fo : QueryOptions)
    (h1 : fo.allSimpleScalarFilters = true)
    (h2 : fo.singleOrNoOrder = true)
    (h3 : fo.group_by = none)
    (h4 : fo.having = none) :
    compile t fo = Request.getReq ("/" ++ t) (buildParams (buildBody fo)) := by
  have hfilters : ∀ f ∈ filterList fo.filter,
      f.operator.isAdvanced = false ∧ f.value.isArr = false :=
    simple_state_filters fo h1
  have hanyAdv : (filterList fo.filter).any
      (fun f => f.operator.isAdvanced) = false := by
    rw [← Bool.not_eq_true, List.any_eq_true]
    rintro ⟨f, hf, hadv⟩
    rw [(hfilters f hf).1] at hadv
    exact Bool.false_ne_true hadv
  have hanyArr : (filterList fo.filter).any
      (fun f => f.value.isArr) = false := by
    rw [← Bool.not_eq_true, List.any_eq_true]
    rintro ⟨f, hf, harr⟩
    rw [(hfilters f hf).2] at harr
    exact Bool.false_ne_true harr
  have hadv : hasAdvancedFeatures (buildBody fo) = false := by
    unfold hasAdvancedFeatures
    have hgb : (buildBody fo).group_by = none := by simp [buildBody, h3]
    have hhv : (buildBody fo).having = none := by simp [buildBody, h4]
    have hoi : orderIsItems (buildBody fo).order_by = false := by
      unfold QueryOptions.singleOrNoOrder at h2
      cases e : fo.order with
      | none => simp [buildBody, e, orderIsItems]
      | some g =>
          rw [e] at h2
          cases g with
          | str s =>
              by_cases hs : s = "" <;>
                simp [buildBody, e, orderIsItems, hs]
          | items l => simp at h2
    rw [hgb, hhv, hoi]
    cases e : fo.filter with
    | none => simp [buildBody, e]
    | some ff =>
        rw [e] at hanyAdv
        simp [buildBody, e, hanyAdv]
  have harr : hasArrayFilterValues (buildBody fo) = false := by
    unfold hasArrayFilterValues
    cases e : fo.filter with
    | none => simp [buildBody, e]
    | some ff =>
        rw [e] at hanyArr
        simp [buildBody, e, hanyArr]
  simp [compile, hadv, harr]

/-- Helper: `overlay` commutes with mapping a function over both
fields. -/
theorem overlay_map (g : α → β) (o b : Option α) :
    overlay (o.map g) (b.map g) = (overlay o b).map g := by
  cases o <;> simp [overlay]

/-- Helper: replacing every logical op by AND commutes with the spread
merge of accumulated state and overrides. -/
theorem merge_allAnd (s ov : QueryOptions) :
    mergeOptions s.allAndFilters ov.allAndFilters
      = (mergeOptions s ov).allAndFilters := by
  unfold QueryOptions.allAndFilters mergeOptions
  simp [overlay_map]

/-- Helper: the clause list of an all-AND filter field is the mapped
clause list. -/
theorem filterList_allAnd (of : Option FilterField) :
    filterList (of.map FilterField.allAnd)
      = (filterList of).map FilterExpression.withAndOp := by
  cases of with
  | none => rfl
  | some ff => cases ff <;> rfl

/-- Helper: replacing logical ops by AND changes no operator and no
value, so the simple-scalar test is unchanged. -/
theorem allSimpleScalar_allAnd (fo : QueryOptions) :
    fo.allAndFilters.allSimpleScalarFilters
      = fo.allSimpleScalarFilters := by
  unfold QueryOptions.allSimpleScalarFilters
  show (filterList (fo.filter.map FilterField.allAnd)).all _
      = (filterList fo.filter).all _
  rw [filterList_allAnd, List.all_map]
  rfl

/-- Helper: `isEmpty` is unchanged by `map`. -/
theorem listIsEmpty_map (g : α → β) (l : List α) :
    (l.map g).isEmpty = l.isEmpty := by
  cases l <;> rfl

/-- Helper: the flat filter token never mentions the logical op. -/
theorem filterToken_withAndOp (f : FilterExpression) :
    filterToken f.withAndOp = filterToken f := rfl

/-- Helper: the GET parameter set compiled from an all-AND state equals
the one compiled from the original state: the flat encoding does not
represent logical ops at all. -/
theorem buildParams_allAnd (fo : QueryOptions) :
    buildParams (buildBody fo.allAndFilters)
      = buildParams (buildBody fo) := by
  have hsel : (buildBody fo.allAndFilters).select = (buildBody fo).select := rfl
  have hord : (buildBody fo.allAndFilters).order_by = (buildBody fo).order_by := rfl
  have hdir : (buildBody fo.allAndFilters).order_direction
      = (buildBody fo).order_direction := rfl
  have hlim : (buildBody fo.allAndFilters).limit = (buildBody fo).limit := rfl
  have hoff : (buildBody fo.allAndFilters).offset = (buildBody fo).offset := rfl
  have hfil : (buildBody fo.allAndFilters).filters
      = ((buildBody fo).filters).map (List.map FilterExpression.withAndOp) := by
    show (match fo.allAndFilters.filter with
        | none => none
        | some ff => some (filterList (some ff)))
      = Option.map _ (match fo.filter with
        | none => none
        | some ff => some (filterList (some ff)))
    show (match fo.filter.map FilterField.allAnd with
        | none => none
        | some ff => some (filterList (some ff)))
      = _
    cases fo.filter with
    | none => rfl
    | some ff => cases ff <;> simp [FilterField.allAnd, filterList]
  unfold buildParams
  rw [hsel, hord, hdir, hlim, hoff, hfil]
  cases e : (buildBody fo).filters with
  | none => rfl
  | some fs =>
      have hfield :
          (if (fs.map FilterExpression.withAndOp).isEmpty = true
            then (none : Option String)
            else some (",".intercalate
              (List.map filterToken (fs.map FilterExpression.withAndOp))))
          = (if fs.isEmpty = true then none
            else some (",".intercalate (List.map filterToken fs))) := by
        rw [listIsEmpty_map, List.map_map]
        rfl
      exact congrArg
        (fun v => GetParams.mk (Option.map ",".intercalate (buildBody fo).select)
          v
          (match (buildBody fo).order_by with
            | some (OrderField.str s) => if s = "" then none else some s
            | _ => none)
          (match (buildBody fo).order_by with
            | some (OrderField.str s) =>
                if s = "" then none
                else some ((buildBody fo).order_direction.getD Direction.asc)
            | _ => none)
          (buildBody fo).limit (buildBody fo).offset)
        hfield

/-- C1: whenever the final options of a terminal `get`/`execute` call
carry a (truthy) group-by, at least one having clause, a multi-key
order specification, or some filter clause with operator
`in`/`not_in`/`between`/`not_between`, the compiler takes the advanced
path: a POST to `/{table}/query` carrying the JSON body, never the GET
query-string form. -/
theorem advanced_features_force_post (t : String) (s ov : QueryOptions)
    (h : ((mergeOptions s ov).hasGroupBy || (mergeOptions s ov).hasHaving
        || (mergeOptions s ov).hasMultiOrder
        || (mergeOptions s ov).hasAdvancedFilterOp) = true) :
    (QueryBuilder.get t s ov).1
        = Request.post ("/" ++ t ++ "/query")
            (buildBody (mergeOptions s ov)) ∧
    (QueryBuilder.execute t s ov).1
        = Request.post ("/" ++ t ++ "/query")
            (buildBody (mergeOptions s ov)) := by
  have hadv := hasAdv_of_flags (mergeOptions s ov) h
  constructor <;> simp [QueryBuilder.get, QueryBuilder.execute, compile, hadv]

/-- C1 witness: a state built with `.groupBy(['category'])` and no
overrides compiles to the advanced POST. -/
theorem advanced_features_force_post_witness :
    (QueryBuilder.get "users" groupByChainState emptyOptions).1
        = Request.post "/users/query"
            (buildBody (mergeOptions groupByChainState emptyOptions)) :=
  (advanced_features_force_post "users" groupByChainState emptyOptions
    (by decide)).1

/-- C2: whenever the final options of a terminal `get`/`execute` call
have only simple-operator, scalar-valued filter clauses, an order
specification that is absent or a single column, no group-by and no
having clause, the compiler takes the simple path: a GET to `/{table}`
with URL query parameters, never a POST body. -/
theorem simple_queries_use_get (t : String) (s ov : QueryOptions)
    (h1 : (mergeOptions s ov).allSimpleScalarFilters = true)
    (h2 : (mergeOptions s ov).singleOrNoOrder = true)
    (h3 : (mergeOptions s ov).group_by = none)
    (h4 : (mergeOptions s ov).having = none) :
    (QueryBuilder.get t s ov).1
        = Request.getReq ("/" ++ t)
            (buildParams (buildBody (mergeOptions s ov))) ∧
    (QueryBuilder.execute t s ov).1
        = Request.getReq ("/" ++ t)
            (buildParams (buildBody (mergeOptions s ov))) := by
  have hc := compile_simple_getReq t (mergeOptions s ov) h1 h2 h3 h4
  exact ⟨hc, hc⟩

/-- C2 witness: a state built with `.filter('age','gte',18).order('id')`
and no overrides compiles to the simple GET. -/
theorem simple_queries_use_get_witness :
    (QueryBuilder.get "users" simpleChainState emptyOptions).1
        = Request.getReq "/users"
            (buildParams (buildBody (mergeOptions simpleChainState
              emptyOptions))) :=
  (simple_queries_use_get "users" simpleChainState emptyOptions
    (by decide) (by decide) (by decide) (by decide)).1

/-- C4: building
`.select(['id','name']).filter('age','gte',18).order('created_at','desc').limit(10)`
and calling `get()` compiles, for every table, to a GET request whose
parameters are exactly `select="id,name"`, `filter="age.gte.18"`,
`order="created_at"`, `order_direction=desc`, `limit=10`, and no
offset. -/
theorem simple_chain_roundtrip (t : String) :
    (QueryBuilder.get t
      (QueryBuilder.limit
        (QueryBuilder.order
          (QueryBuilder.filter
            (QueryBuilder.select emptyOptions (.list ["id", "name"]))
            "age" .gte (.scalar (.num 18)) .and)
          "created_at" .desc)
        10)
      emptyOptions).1
      = Request.getReq ("/" ++ t)
          { select := some "id,name"
            filter := some "age.gte.18"
            order := some "created_at"
            order_direction := some .desc
            limit := some 10
            offset := none } := by
  rfl

/-- C5: building
`.filter('category','in',['a','b']).groupBy('category').having('COUNT(*)','gt',5)`
and calling `get()` compiles, for every table, to a POST to
`/{table}/query` whose body holds the filter clause with default
logical op AND, the group-by string normalized to a one-element list,
and the single having clause. -/
theorem advanced_chain_roundtrip (t : String) :
    (QueryBuilder.get t
      (QueryBuilder.having
        (QueryBuilder.groupBy
          (QueryBuilder.filter emptyOptions
            "category" .inOp (.arr [.str "a", .str "b"]) .and)
          (.str "category"))
        "COUNT(*)" .gt (.num 5))
      emptyOptions).1
      = Request.post ("/" ++ t ++ "/query")
          { select := none
            filters := some [⟨"category", .inOp, .arr [.str "a", .str "b"], .and⟩]
            group_by := some ["category"]
            having := some [⟨"COUNT(*)", .gt, .num 5⟩]
            order_by := none
            order_direction := none
            limit := none
            offset := none } := by
  rfl

/-- C8: on any built accumulator, calling `get` a second time with the
same overrides and no intervening builder mutation (the second call
starts from the state the first call returned) compiles a structurally
identical request: same method, same path, equal parameter set or
body. -/
theorem get_idempotent (t : String) (s ov : QueryOptions) :
    (QueryBuilder.get t s ov).1
      = (QueryBuilder.get t (QueryBuilder.get t s ov).2 ov).1 := by
  rfl

/-- C7 counterexample: `first()` does mutate the persisted accumulator
state. On an accumulator built with `.limit(50)`, the state after the
`first()` dispatch differs from the state before it (its stored limit
has become 1). -/
theorem first_mutates_state_counterexample :
    (QueryBuilder.firstStep "users" (QueryBuilder.limit emptyOptions 50)).2
      ≠ QueryBuilder.limit emptyOptions 50 := by
  decide

/-- C7 amended: the terminal `get` and `execute` leave the persisted
accumulator state untouched for every state and overrides argument, but
`first` overwrites exactly the stored limit with 1 (it dispatches
through `this.limit(1)`), leaving every other field unchanged. -/
theorem terminal_state_mutation (t : String) (s ov : QueryOptions) :
    (QueryBuilder.get t s ov).2 = s ∧
    (QueryBuilder.execute t s ov).2 = s ∧
    (QueryBuilder.firstStep t s).2 = { s with limit := some 1 } :=
  ⟨rfl, rfl, rfl⟩

/-- C9 counterexample: the compiled order specification is not always
that of the last ordering call alone. After `orderBy('a', 'desc')`
followed by `orderBy('b')` (no direction), the wire form keeps the
stale direction `desc`, while `orderBy('b')` alone compiles with the
default direction `asc`. -/
theorem order_last_call_counterexample :
    wireOrderOf (applyOrderCalls emptyOptions
        [.single "a" (some .desc), .single "b" none])
      ≠ wireOrderOf (applyOrderCalls emptyOptions [.single "b" none]) := by
  decide

/-- C9 amended: for every sequence of ordering calls whose last call
fixes its direction on its own (a multi-key call, or a single-key call
with an explicit direction argument, as `order` always supplies), the
compiled order specification equals what it would be had only the last
call been made, from any starting state: switching between the
single-key and multi-key forms replaces the prior order specification
wholesale in the wire form. -/
theorem order_last_call_wins (s : QueryOptions) (cs : List OrderCall)
    (c : OrderCall) (h : c.explicitDir = true) :
    wireOrderOf (applyOrderCalls s (cs ++ [c]))
      = wireOrderOf (applyOrderCalls emptyOptions [c]) := by
  rw [applyOrderCalls, applyOrderCalls, List.foldl_append]
  cases c with
  | single col d =>
      cases d with
      | some dd =>
          simp [applyOrderCall, QueryBuilder.orderBy, wireOrderOf, buildBody]
      | none => simp [OrderCall.explicitDir] at h
  | multi l =>
      simp [applyOrderCall, QueryBuilder.orderBy, wireOrderOf, buildBody]

/-- C9 witness: a concrete multi-key call followed by a single-key call
with an explicit direction compiles as the last call alone would. -/
theorem order_last_call_wins_witness :
    wireOrderOf (applyOrderCalls emptyOptions
        ([.multi [⟨"a", .asc⟩]] ++ [.single "b" (some .desc)]))
      = wireOrderOf (applyOrderCalls emptyOptions [.single "b" (some .desc)]) :=
  order_last_call_wins emptyOptions [.multi [⟨"a", .asc⟩]]
    (.single "b" (some .desc)) (by decide)

/-- C3 counterexample: a built state holding an OR filter clause with a
scalar value and no other advanced feature (`.eq('a',1).or('b','eq',2)`)
does NOT compile to the advanced POST path: the dispatch is not a POST
(it is the flat GET form, which drops the logical op). -/
theorem or_filter_counterexample :
    (filterList orChainState.filter).any
        (fun f => f.logical_op == LogicalOp.or) = true ∧
    Request.isPost
        (QueryBuilder.get "users" orChainState emptyOptions).1 = false := by
  decide

/-- C3 amended: a built state containing an OR filter clause, when all
filter clauses are simple-operator and scalar-valued and no
group-by/having/multi-key order is present, compiles to the simple GET
path — OR does not force the advanced path. The flat encoding does not
represent the OR at all: the compiled request coincides with the one
compiled after replacing every logical op by AND. -/
theorem or_filter_uses_get (t : String) (s ov : QueryOptions)
    (_hor : (filterList (mergeOptions s ov).filter).any
        (fun f => f.logical_op == LogicalOp.or) = true)
    (h1 : (mergeOptions s ov).allSimpleScalarFilters = true)
    (h2 : (mergeOptions s ov).singleOrNoOrder = true)
    (h3 : (mergeOptions s ov).group_by = none)
    (h4 : (mergeOptions s ov).having = none) :
    (QueryBuilder.get t s ov).1
        = Request.getReq ("/" ++ t)
            (buildParams (buildBody (mergeOptions s ov))) ∧
    (QueryBuilder.get t s ov).1
        = (QueryBuilder.get t s.allAndFilters ov.allAndFilters).1 := by
  have hc := compile_simple_getReq t (mergeOptions s ov) h1 h2 h3 h4
  refine ⟨hc, ?_⟩
  show compile t (mergeOptions s ov)
      = compile t (mergeOptions s.allAndFilters ov.allAndFilters)
  rw [merge_allAnd]
  have hc2 := compile_simple_getReq t (mergeOptions s ov).allAndFilters
    (by rw [allSimpleScalar_allAnd]; exact h1) h2 h3 h4
  rw [hc, hc2, buildParams_allAnd]

/-- C3 witness: the state `.eq('a',1).or('b','eq',2)` compiles to the
simple GET form. -/
theorem or_filter_uses_get_witness :
    (QueryBuilder.get "users" orChainState emptyOptions).1
        = Request.getReq "/users"
            (buildParams (buildBody (mergeOptions orChainState
              emptyOptions))) :=
  (or_filter_uses_get "users" orChainState emptyOptions
    (by decide) (by decide) (by decide) (by decide) (by decide)).1

/-- C6: `first()` issues its request with limit forced to 1 regardless
of any prior stored limit; on a response whose data sequence is empty
it returns the null sentinel rather than raising; it propagates a
transport error unchanged, and it never errors on a successful
response. -/
theorem first_spec (t : String) (s : QueryOptions)
    (transport : Request → Except WowError QueryResponse) :
    Request.limitOf (QueryBuilder.firstStep t s).1 = some 1 ∧
    (∀ env, transport (QueryBuilder.firstStep t s).1 = .ok env →
        env.data = [] →
        runFirst t s transport = .ok (.scalar .null)) ∧
    (∀ e, transport (QueryBuilder.firstStep t s).1 = .error e →
        runFirst t s transport = .error e) ∧
    (∀ env, transport (QueryBuilder.firstStep t s).1 = .ok env →
        ∃ v, runFirst t s transport = .ok v) := by
  refine ⟨?_, ?_, ?_, ?_⟩
  · show Request.limitOf
        (compile t (mergeOptions (QueryBuilder.limit s 1) emptyOptions))
        = some 1
    rw [mergeOptions_empty, limitOf_compile]
    rfl
  · intro env hok hdata
    unfold runFirst
    rw [hok]
    show Except.ok (firstValue env.data) = _
    rw [hdata]
    rfl
  · intro e herr
    unfold runFirst
    rw [herr]
  · intro env hok
    exact ⟨firstValue env.data, by unfold runFirst; rw [hok]⟩

/-- C6 witness: on an accumulator built with `.limit(50)` and a
transport answering an empty envelope, the issued request carries limit
1 and `first` returns the null sentinel. -/
theorem first_spec_witness :
    Request.limitOf (QueryBuilder.firstStep "users"
        (QueryBuilder.limit emptyOptions 50)).1 = some 1 ∧
    runFirst "users" (QueryBuilder.limit emptyOptions 50) emptyTransport
        = .ok (.scalar .null) :=
  ⟨(first_spec "users" (QueryBuilder.limit emptyOptions 50)
      emptyTransport).1,
   (first_spec "users" (QueryBuilder.limit emptyOptions 50)
      emptyTransport).2.1 ⟨[], 0, 0, 1, 0⟩ rfl rfl⟩

/-- C10: the overrides record of `get`/`execute` is merged shallowly
over the accumulated state: every field present in the overrides wholly
replaces the accumulated field of the same name for that request; in
particular, with a filter field in the overrides the compiled request
does not depend on the filters accumulated through the chain — they are
discarded, not appended. -/
theorem overrides_shallow_merge (t : String) (s o : QueryOptions) :
    (o.select.isSome = true → (mergeOptions s o).select = o.select) ∧
    (o.filter.isSome = true → (mergeOptions s o).filter = o.filter) ∧
    (o.group_by.isSome = true → (mergeOptions s o).group_by = o.group_by) ∧
    (o.having.isSome = true → (mergeOptions s o).having = o.having) ∧
    (o.order.isSome = true → (mergeOptions s o).order = o.order) ∧
    (o.orderDirection.isSome = true →
      (mergeOptions s o).orderDirection = o.orderDirection) ∧
    (o.limit.isSome = true → (mergeOptions s o).limit = o.limit) ∧
    (o.offset.isSome = true → (mergeOptions s o).offset = o.offset) ∧
    (o.filter.isSome = true →
      (QueryBuilder.get t s o).1
        = (QueryBuilder.get t { s with filter := none } o).1) := by
  refine ⟨?_, ?_, ?_, ?_, ?_, ?_, ?_, ?_, ?_⟩
  · intro h
    obtain ⟨v, hv⟩ := Option.isSome_iff_exists.mp h
    simp [mergeOptions, overlay, hv]
  · intro h
    obtain ⟨v, hv⟩ := Option.isSome_iff_exists.mp h
    simp [mergeOptions, overlay, hv]
  · intro h
    obtain ⟨v, hv⟩ := Option.isSome_iff_exists.mp h
    simp [mergeOptions, overlay, hv]
  · intro h
    obtain ⟨v, hv⟩ := Option.isSome_iff_exists.mp h
    simp [mergeOptions, overlay, hv]
  · intro h
    obtain ⟨v, hv⟩ := Option.isSome_iff_exists.mp h
    simp [mergeOptions, overlay, hv]
  · intro h
    obtain ⟨v, hv⟩ := Option.isSome_iff_exists.mp h
    simp [mergeOptions, overlay, hv]
  · intro h
    obtain ⟨v, hv⟩ := Option.isSome_iff_exists.mp h
    simp [mergeOptions, overlay, hv]
  · intro h
    obtain ⟨v, hv⟩ := Option.isSome_iff_exists.mp h
    simp [mergeOptions, overlay, hv]
  · intro h
    obtain ⟨f, hfv⟩ := Option.isSome_iff_exists.mp h
    show compile t (mergeOptions s o) = compile t (mergeOptions _ o)
    have : mergeOptions s o = mergeOptions { s with filter := none } o := by
      simp [mergeOptions, overlay, hfv]
    rw [this]

/-- C10 witness: with a one-clause chain state and an overrides record
carrying its own filter, the merged filter is the override filter and
the compiled request ignores the chain filter. -/
theorem overrides_shallow_merge_witness :
    (mergeOptions chainState overrideState).filter = overrideState.filter ∧
    (QueryBuilder.get "users" chainState overrideState).1
      = (QueryBuilder.get "users" { chainState with filter := none }
          overrideState).1 :=
  ⟨(overrides_shallow_merge "users" chainState overrideState).2.1 (by decide),
   (overrides_shallow_merge "users" chainState
      overrideState).2.2.2.2.2.2.2.2 (by decide)⟩

end WowSQL
